import Mathlib

/-!
Verification of the `node` package of wtam/go-ethereum (src/node/node.go):
the lifecycle container for a P2P protocol stack.  The Go code is embedded
shallowly: the `Node` struct becomes `NodeState`, each public method becomes a
pure function from state to (returned error, new state, trace of calls made
into the external collaborators).  External collaborators (factories, service
instances, the p2p server) are opaque in the source, so they are modelled by
their observable behaviour: each factory either fails with an error or
produces a service instance with fixed `Start`/`Stop` results; the p2p server
carries its `Start`/`Stop` results inside the (value-copied) configuration.
Go map iteration order is unspecified; the embedding determinises it to
insertion order, one of the possible runs.  Object identity of heap-allocated
service instances is modelled by an allocation counter `nextUid` threaded
through the state: every successful factory invocation yields a service
carrying a fresh `uid`.
-/

namespace GethNode

/-- Errors of the node package.  `nodeStopped`, `nodeRunning`,
`serviceUnknown`, `serviceRegistered` are the four sentinel errors declared at
the top of node.go.  `stopError` is the aggregate `StopError` value with its
per-service `Services` map (modelled as an association list).  `external n`
stands for an opaque error produced by a factory, a service or the p2p
transport.  `factoryFailed` and `serviceStartFailed` do not occur anywhere in
the source; they are modelled from the spec, which postulates wrapper error
kinds carrying the offending ID, so that the claim about them can be stated
and compared with what the code actually returns. -/
inductive Err : Type where
  | nodeStopped : Err
  | nodeRunning : Err
  | serviceUnknown : Err
  | serviceRegistered : Err
  | stopError (services : List (String × Err)) : Err
  | external (n : Nat) : Err
  | factoryFailed (id : String) (e : Err) : Err
  | serviceStartFailed (id : String) (e : Err) : Err

/-- A live service instance.  The source's `Service` interface is
`Start() error` / `Stop() error`; an instance is modelled by the results its
two methods return (`none` = nil error) plus the allocation identity `uid`
distinguishing it from every other instance ever constructed. -/
structure Service : Type where
  uid : Nat
  startErr : Option Err
  stopErr : Option Err

/-- A registered constructor `func() (Service, error)`: it either fails with
an error or constructs a fresh service instance with the given `Start`/`Stop`
behaviour. -/
inductive Factory : Type where
  | fails (e : Err) : Factory
  | makes (startErr stopErr : Option Err) : Factory

/-- The p2p server / its configuration.  The container copies the
configuration by value (`*running = *n.config`) and treats the rest as a black
box exposing `Start`/`Stop`; the behaviour of those two calls is carried in
the value. -/
structure P2PServer : Type where
  privateKey : Nat
  name : String
  startErr : Option Err
  stopErr : Option Err

/-- One call made by the container into an external collaborator, recorded in
the trace: a factory invocation, a service `Start`/`Stop`, or a p2p server
`Start`/`Stop`. -/
inductive Event : Type where
  | factoryCall (id : String) : Event
  | svcStart (id : String) : Event
  | svcStop (id : String) : Event
  | netStart : Event
  | netStop : Event
deriving Repr, DecidableEq

/-- The `Node` struct: configuration template, registry of factories
(`stack`), and the live p2p server (`running`) and live service map
(`services`), both nil while stopped.  Maps become association lists in
insertion order.  `nextUid` is the allocation counter modelling heap
freshness of service instances; it is not a field of the Go struct. -/
structure NodeState : Type where
  config : P2PServer
  stack : List (String × Factory)
  running : Option P2PServer
  services : Option (List (String × Service))
  nextUid : Nat

/-- `New`: a fresh node with the given identity, an empty registry and no
live state. -/
def newNode (key : Nat) (name : String) (netStartErr netStopErr : Option Err) :
    NodeState :=
  { config := { privateKey := key, name := name,
                startErr := netStartErr, stopErr := netStopErr }
    stack := []
    running := none
    services := none
    nextUid := 0 }

/-- Key lookup in the registry, i.e. `n.stack[id]`. -/
def stackHas (stack : List (String × Factory)) (id : String) : Bool :=
  stack.any (fun p => p.1 == id)

/-- `Register`: fails with `ErrNodeRunning` while running, with
`ErrServiceRegistered` on a duplicate ID, otherwise inserts the constructor. -/
def register (n : NodeState) (id : String) (c : Factory) :
    Option Err × NodeState :=
  if n.running.isSome then
    (some Err.nodeRunning, n)
  else if stackHas n.stack id then
    (some Err.serviceRegistered, n)
  else
    (none, { n with stack := n.stack ++ [(id, c)] })

/-- `Unregister`: fails with `ErrNodeRunning` while running, with
`ErrServiceUnknown` on an absent ID, otherwise deletes the entry. -/
def unregister (n : NodeState) (id : String) : Option Err × NodeState :=
  if n.running.isSome then
    (some Err.nodeRunning, n)
  else if stackHas n.stack id then
    (none, { n with stack := n.stack.eraseP (fun p => p.1 == id) })
  else
    (some Err.serviceUnknown, n)

/-- The factory-invocation loop of `Start`:
`for id, constructor := range n.stack { service, err := constructor(); ... }`.
Walks the registry in order, invoking each constructor; the first factory
error aborts the whole loop with that error.  Returns the constructed service
map, the advanced allocation counter and the trace of factory calls. -/
def instantiate (uid : Nat) (evs : List Event) :
    List (String × Factory) → (Except Err (List (String × Service))) × Nat × List Event
  | [] => (Except.ok [], uid, evs)
  | (id, c) :: rest =>
    let evs := evs ++ [Event.factoryCall id]
    match c with
    | Factory.fails e => (Except.error e, uid, evs)
    | Factory.makes se te =>
      match instantiate (uid + 1) evs rest with
      | (Except.error e, uid2, evs2) => (Except.error e, uid2, evs2)
      | (Except.ok svcs, uid2, evs2) =>
        (Except.ok ((id, { uid := uid, startErr := se, stopErr := te }) :: svcs),
         uid2, evs2)

/-- The service-start loop of `Start`: starts each instantiated service in
order, maintaining `started` (the IDs already started, in start order).  On
the first failure it performs the rollback `for _, id := range started {
services[id].Stop() }` — it stops every already-started service, iterating
`started` from the front, swallowing the stop results — and returns the
original start error. -/
def startLoop (started : List String) (evs : List Event) :
    List (String × Service) → Option Err × List Event
  | [] => (none, evs)
  | (id, s) :: rest =>
    let evs := evs ++ [Event.svcStart id]
    match s.startErr with
    | some e => (some e, evs ++ started.map Event.svcStop)
    | none => startLoop (started ++ [id]) evs rest

/-- `Start`: short-circuits with `ErrNodeRunning` if live; copies the
configuration by value; instantiates every factory (aborting on the first
factory error); starts the copied p2p server (aborting on its error); starts
each service with rollback on first failure; on full success publishes the
live service map and server. -/
def start (n : NodeState) : Option Err × NodeState × List Event :=
  if n.running.isSome then
    (some Err.nodeRunning, n, [])
  else
    let running := n.config
    match instantiate n.nextUid [] n.stack with
    | (Except.error e, uid2, evs) =>
      (some e, { n with nextUid := uid2 }, evs)
    | (Except.ok services, uid2, evs) =>
      let evs := evs ++ [Event.netStart]
      match running.startErr with
      | some e => (some e, { n with nextUid := uid2 }, evs)
      | none =>
        match startLoop [] evs services with
        | (some e, evs2) => (some e, { n with nextUid := uid2 }, evs2)
        | (none, evs2) =>
          (none,
           { n with services := some services, running := some running,
                    nextUid := uid2 },
           evs2)

/-- The service-stop loop of `Stop`: stops every live service, never
short-circuiting, collecting each failure keyed by ID into the `Services`
map of the aggregate `StopError`. -/
def stopLoop (fails : List (String × Err)) (evs : List Event) :
    List (String × Service) → List (String × Err) × List Event
  | [] => (fails, evs)
  | (id, s) :: rest =>
    let evs := evs ++ [Event.svcStop id]
    match s.stopErr with
    | some e => stopLoop (fails ++ [(id, e)]) evs rest
    | none => stopLoop fails evs rest

/-- `Stop`: short-circuits with `ErrNodeStopped` if not running; stops every
live service collecting failures into the aggregate; stops the p2p server
(its result is discarded — the call is a bare statement in the source);
clears the live service map and server; returns the aggregate exactly when it
collected at least one failure. -/
def stop (n : NodeState) : Option Err × NodeState × List Event :=
  match n.running with
  | none => (some Err.nodeStopped, n, [])
  | some _ =>
    match stopLoop [] [] (n.services.getD []) with
    | (fails, evs) =>
      let evs := evs ++ [Event.netStop]
      let n2 := { n with services := none, running := none }
      if fails.isEmpty then
        (none, n2, evs)
      else
        (some (Err.stopError fails), n2, evs)

/-- `Restart`: `Stop` then `Start`, propagating the first failure. -/
def restart (n : NodeState) : Option Err × NodeState × List Event :=
  match stop n with
  | (some e, n2, evs) => (some e, n2, evs)
  | (none, n2, evs) =>
    match start n2 with
    | (e2, n3, evs2) => (e2, n3, evs ++ evs2)

/-! ### Helper definitions for stating and proving the claims -/

/-- The key list of an association list (the set of IDs of a registry or a
live service map). -/
def ids {α : Type} (l : List (String × α)) : List String :=
  l.map Prod.fst

/-- Whether a factory invocation succeeds (constructs a service). -/
def Factory.isMakes : Factory → Bool
  | Factory.fails _ => false
  | Factory.makes _ _ => true

/-- Whether a factory constructs a service whose `Start` succeeds. -/
def Factory.startsOK : Factory → Bool
  | Factory.fails _ => false
  | Factory.makes (some _) _ => false
  | Factory.makes none _ => true

/-- The service map produced by a run of the factory loop in which every
factory succeeds, with allocation identities assigned in order from `uid`. -/
def mkServices (uid : Nat) : List (String × Factory) → List (String × Service)
  | [] => []
  | (_, Factory.fails _) :: rest => mkServices (uid + 1) rest
  | (id, Factory.makes se te) :: rest =>
      (id, { uid := uid, startErr := se, stopErr := te }) :: mkServices (uid + 1) rest

/-! ### Characterisation of the factory loop -/

theorem instantiate_all_makes (l : List (String × Factory)) :
    ∀ (uid : Nat) (evs : List Event), (∀ p ∈ l, p.2.isMakes = true) →
    instantiate uid evs l =
      (Except.ok (mkServices uid l), uid + l.length,
       evs ++ (ids l).map Event.factoryCall) := by
  induction l with
  | nil => intro uid evs _; simp [instantiate, mkServices, ids]
  | cons p rest ih =>
    intro uid evs h
    obtain ⟨id, c⟩ := p
    have hc : c.isMakes = true := h (id, c) (List.mem_cons_self _ _)
    cases c with
    | fails e => simp [Factory.isMakes] at hc
    | makes se te =>
      have hrest : ∀ p ∈ rest, p.2.isMakes = true :=
        fun p hp => h p (List.mem_cons_of_mem _ hp)
      simp only [instantiate, ih (uid + 1) (evs ++ [Event.factoryCall id]) hrest,
        mkServices, ids, List.map_cons, List.length_cons, Prod.mk.injEq]
      refine ⟨trivial, by omega, by simp⟩

theorem instantiate_first_fails (pre : List (String × Factory)) :
    ∀ (uid : Nat) (evs : List Event) (idF : String) (e : Err)
      (rest : List (String × Factory)),
    (∀ p ∈ pre, p.2.isMakes = true) →
    instantiate uid evs (pre ++ (idF, Factory.fails e) :: rest) =
      (Except.error e, uid + pre.length,
       evs ++ (ids pre).map Event.factoryCall ++ [Event.factoryCall idF]) := by
  induction pre with
  | nil => intro uid evs idF e rest _; simp [instantiate, ids]
  | cons p pre ih =>
    intro uid evs idF e rest h
    obtain ⟨id, c⟩ := p
    have hc : c.isMakes = true := h (id, c) (List.mem_cons_self _ _)
    cases c with
    | fails e2 => simp [Factory.isMakes] at hc
    | makes se te =>
      have hpre : ∀ p ∈ pre, p.2.isMakes = true :=
        fun p hp => h p (List.mem_cons_of_mem _ hp)
      simp only [List.cons_append, instantiate, List.append_eq,
        ih (uid + 1) (evs ++ [Event.factoryCall id]) idF e rest hpre,
        ids, List.map_cons, List.length_cons, Prod.mk.injEq]
      refine ⟨trivial, by omega, by simp⟩

theorem instantiate_error (l : List (String × Factory)) :
    ∀ (uid : Nat) (evs : List Event) (e : Err),
    (instantiate uid evs l).1 = Except.error e →
    ∃ p ∈ l, p.2 = Factory.fails e := by
  induction l with
  | nil => intro uid evs e h; simp [instantiate] at h
  | cons p rest ih =>
    intro uid evs e h
    obtain ⟨id, c⟩ := p
    cases c with
    | fails e2 =>
      simp only [instantiate] at h
      exact ⟨(id, Factory.fails e2), List.mem_cons_self _ _, by
        simp only [Except.error.injEq] at h; rw [h]⟩
    | makes se te =>
      simp only [instantiate] at h
      rcases heq : instantiate (uid + 1) (evs ++ [Event.factoryCall id]) rest with
        ⟨res, uid2, evs2⟩
      rw [heq] at h
      cases res with
      | error e2 =>
        simp only [Except.error.injEq] at h
        obtain ⟨q, hq, hq2⟩ := ih (uid + 1) (evs ++ [Event.factoryCall id]) e
          (by rw [heq]; simpa using h)
        exact ⟨q, List.mem_cons_of_mem _ hq, hq2⟩
      | ok svcs => simp at h

theorem instantiate_ok (l : List (String × Factory)) :
    ∀ (uid : Nat) (evs : List Event) (svcs : List (String × Service)),
    (instantiate uid evs l).1 = Except.ok svcs →
    ∀ p ∈ l, p.2.isMakes = true := by
  induction l with
  | nil => intro uid evs svcs _ p hp; simp at hp
  | cons p rest ih =>
    intro uid evs svcs h q hq
    obtain ⟨id, c⟩ := p
    cases c with
    | fails e => simp [instantiate] at h
    | makes se te =>
      rcases List.mem_cons.mp hq with hq | hq
      · rw [hq]; rfl
      · simp only [instantiate] at h
        rcases heq : instantiate (uid + 1) (evs ++ [Event.factoryCall id]) rest with
          ⟨res, uid2, evs2⟩
        rw [heq] at h
        cases res with
        | error e2 => simp at h
        | ok svcs2 =>
          exact ih (uid + 1) (evs ++ [Event.factoryCall id]) svcs2
            (by rw [heq]) q hq

/-! ### Properties of the produced service map -/

theorem mkServices_append (a : List (String × Factory)) :
    ∀ (uid : Nat) (b : List (String × Factory)),
    mkServices uid (a ++ b) = mkServices uid a ++ mkServices (uid + a.length) b := by
  induction a with
  | nil => intro uid b; simp [mkServices]
  | cons p a ih =>
    intro uid b
    obtain ⟨id, c⟩ := p
    cases c with
    | fails e =>
      simp only [List.cons_append, mkServices, List.append_eq, List.length_cons]
      rw [ih (uid + 1) b, show uid + 1 + a.length = uid + (a.length + 1) from by omega]
    | makes se te =>
      simp only [List.cons_append, mkServices, List.append_eq, List.length_cons]
      rw [ih (uid + 1) b, show uid + 1 + a.length = uid + (a.length + 1) from by omega]

theorem mkServices_ids (l : List (String × Factory)) :
    ∀ (uid : Nat), (∀ p ∈ l, p.2.isMakes = true) →
    ids (mkServices uid l) = ids l := by
  induction l with
  | nil => intro uid _; simp [mkServices, ids]
  | cons p l ih =>
    intro uid h
    obtain ⟨id, c⟩ := p
    cases c with
    | fails e =>
      have := h (id, Factory.fails e) (List.mem_cons_self _ _)
      simp [Factory.isMakes] at this
    | makes se te =>
      simp only [mkServices, ids, List.map_cons]
      have : ids (mkServices (uid + 1) l) = ids l :=
        ih (uid + 1) (fun p hp => h p (List.mem_cons_of_mem _ hp))
      simpa [ids] using this

theorem mkServices_startErr_none (l : List (String × Factory)) :
    ∀ (uid : Nat), (∀ p ∈ l, p.2.startsOK = true) →
    ∀ q ∈ mkServices uid l, q.2.startErr = none := by
  induction l with
  | nil => intro uid _ q hq; simp [mkServices] at hq
  | cons p l ih =>
    intro uid h q hq
    obtain ⟨id, c⟩ := p
    cases c with
    | fails e => exact ih (uid + 1) (fun p hp => h p (List.mem_cons_of_mem _ hp)) q hq
    | makes se te =>
      simp only [mkServices] at hq
      rcases List.mem_cons.mp hq with hq | hq
      · have hse := h (id, Factory.makes se te) (List.mem_cons_self _ _)
        cases se with
        | some e => simp [Factory.startsOK] at hse
        | none => rw [hq]
      · exact ih (uid + 1) (fun p hp => h p (List.mem_cons_of_mem _ hp)) q hq

theorem mkServices_uid_ge (l : List (String × Factory)) :
    ∀ (uid : Nat), ∀ q ∈ mkServices uid l, uid ≤ q.2.uid := by
  induction l with
  | nil => intro uid q hq; simp [mkServices] at hq
  | cons p l ih =>
    intro uid q hq
    obtain ⟨id, c⟩ := p
    cases c with
    | fails e =>
      have := ih (uid + 1) q hq
      omega
    | makes se te =>
      simp only [mkServices] at hq
      rcases List.mem_cons.mp hq with hq | hq
      · rw [hq]
      · have := ih (uid + 1) q hq
        omega

theorem mkServices_mem_factory (l : List (String × Factory)) :
    ∀ (uid : Nat), ∀ q ∈ mkServices uid l,
    ∃ p ∈ l, p.1 = q.1 ∧ p.2 = Factory.makes q.2.startErr q.2.stopErr := by
  induction l with
  | nil => intro uid q hq; simp [mkServices] at hq
  | cons p l ih =>
    intro uid q hq
    obtain ⟨id, c⟩ := p
    cases c with
    | fails e =>
      obtain ⟨p2, hp2, hp3⟩ := ih (uid + 1) q hq
      exact ⟨p2, List.mem_cons_of_mem _ hp2, hp3⟩
    | makes se te =>
      simp only [mkServices] at hq
      rcases List.mem_cons.mp hq with hq | hq
      · refine ⟨(id, Factory.makes se te), List.mem_cons_self _ _, ?_, ?_⟩
        · rw [hq]
        · rw [hq]
      · obtain ⟨p2, hp2, hp3⟩ := ih (uid + 1) q hq
        exact ⟨p2, List.mem_cons_of_mem _ hp2, hp3⟩

/-! ### Characterisation of the service-start loop -/

theorem startLoop_ok (l : List (String × Service)) :
    ∀ (started : List String) (evs : List Event),
    (∀ q ∈ l, q.2.startErr = none) →
    startLoop started evs l = (none, evs ++ (ids l).map Event.svcStart) := by
  induction l with
  | nil => intro started evs _; simp [startLoop, ids]
  | cons q l ih =>
    intro started evs h
    obtain ⟨id, s⟩ := q
    have hs : s.startErr = none := h (id, s) (List.mem_cons_self _ _)
    simp only [startLoop, hs,
      ih (started ++ [id]) (evs ++ [Event.svcStart id])
        (fun q hq => h q (List.mem_cons_of_mem _ hq)),
      ids, List.map_cons]
    simp

theorem startLoop_first_fails (p : List (String × Service)) :
    ∀ (started : List String) (evs : List Event) (idN : String) (s : Service)
      (e : Err) (r : List (String × Service)),
    (∀ q ∈ p, q.2.startErr = none) → s.startErr = some e →
    startLoop started evs (p ++ (idN, s) :: r) =
      (some e,
       evs ++ (ids p).map Event.svcStart ++ [Event.svcStart idN]
           ++ (started ++ ids p).map Event.svcStop) := by
  induction p with
  | nil =>
    intro started evs idN s e r _ hs
    simp [startLoop, hs, ids]
  | cons q p ih =>
    intro started evs idN s e r h hs
    obtain ⟨id, s2⟩ := q
    have hs2 : s2.startErr = none := h (id, s2) (List.mem_cons_self _ _)
    simp only [List.cons_append, startLoop, hs2, List.append_eq]
    rw [ih (started ++ [id]) (evs ++ [Event.svcStart id]) idN s e r
        (fun q hq => h q (List.mem_cons_of_mem _ hq)) hs]
    simp [ids]

theorem startLoop_error (l : List (String × Service)) :
    ∀ (started : List String) (evs : List Event) (e : Err),
    (startLoop started evs l).1 = some e →
    ∃ q ∈ l, q.2.startErr = some e := by
  induction l with
  | nil => intro started evs e h; simp [startLoop] at h
  | cons q l ih =>
    intro started evs e h
    obtain ⟨id, s⟩ := q
    rcases hs : s.startErr with _ | e2
    · simp only [startLoop, hs] at h
      obtain ⟨q2, hq2, hq3⟩ := ih (started ++ [id]) (evs ++ [Event.svcStart id]) e h
      exact ⟨q2, List.mem_cons_of_mem _ hq2, hq3⟩
    · simp only [startLoop, hs] at h
      exact ⟨(id, s), List.mem_cons_self _ _, by rw [hs, ← h]⟩

/-! ### Characterisation of the service-stop loop -/

theorem stopLoop_spec (l : List (String × Service)) :
    ∀ (fails : List (String × Err)) (evs : List Event),
    stopLoop fails evs l =
      (fails ++ l.filterMap (fun q => q.2.stopErr.map (fun e => (q.1, e))),
       evs ++ (ids l).map Event.svcStop) := by
  induction l with
  | nil => intro fails evs; simp [stopLoop, ids]
  | cons q l ih =>
    intro fails evs
    obtain ⟨id, s⟩ := q
    rcases hs : s.stopErr with _ | e
    · simp only [stopLoop, hs, ih, List.filterMap_cons, ids, List.map_cons]
      simp [hs]
    · simp only [stopLoop, hs, ih, List.filterMap_cons, ids, List.map_cons]
      simp [hs]

/-! ### Branch characterisations of the public operations -/

theorem startLoop_evs_prefix (l : List (String × Service)) :
    ∀ (started : List String) (evs : List Event),
    ∃ tail, (startLoop started evs l).2 = evs ++ tail := by
  induction l with
  | nil => intro started evs; exact ⟨[], by simp [startLoop]⟩
  | cons q l ih =>
    intro started evs
    obtain ⟨id, s⟩ := q
    rcases hs : s.startErr with _ | e
    · obtain ⟨tail, ht⟩ := ih (started ++ [id]) (evs ++ [Event.svcStart id])
      exact ⟨[Event.svcStart id] ++ tail, by simp only [startLoop, hs, ht]; simp⟩
    · exact ⟨[Event.svcStart id] ++ started.map Event.svcStop,
        by simp only [startLoop, hs]; simp⟩

/-- Every run of `Start` ends in one of three ways: refused because already
running (state untouched), failed mid-way (only the allocation counter moved),
or fully successful (live service map and copied server published). -/
theorem start_branches (n : NodeState) :
    ((start n).1 = some Err.nodeRunning ∧ (start n).2.1 = n
      ∧ n.running.isSome = true)
    ∨ ((start n).1 ≠ none ∧ ∃ uid2, (start n).2.1 = { n with nextUid := uid2 })
    ∨ ((start n).1 = none ∧ ∃ svcs uid2, (start n).2.1 =
        { n with services := some svcs, running := some n.config,
                 nextUid := uid2 }) := by
  cases hr : n.running.isSome with
  | true => exact Or.inl ⟨by simp [start, hr], by simp [start, hr], rfl⟩
  | false =>
    rcases heq : instantiate n.nextUid [] n.stack with ⟨res, uid2, evs⟩
    cases res with
    | error e =>
      refine Or.inr (Or.inl ⟨by simp [start, hr, heq], uid2, by simp [start, hr, heq]⟩)
    | ok svcs =>
      cases hse : n.config.startErr with
      | some e =>
        refine Or.inr (Or.inl ⟨by simp [start, hr, heq, hse], uid2,
          by simp [start, hr, heq, hse]⟩)
      | none =>
        rcases hsl : startLoop [] (evs ++ [Event.netStart]) svcs with ⟨oe, evs2⟩
        cases oe with
        | some e =>
          refine Or.inr (Or.inl ⟨by simp [start, hr, heq, hse, hsl], uid2,
            by simp [start, hr, heq, hse, hsl]⟩)
        | none =>
          refine Or.inr (Or.inr ⟨by simp [start, hr, heq, hse, hsl], svcs, uid2,
            by simp [start, hr, heq, hse, hsl]⟩)

theorem start_config_stack (n : NodeState) :
    (start n).2.1.config = n.config ∧ (start n).2.1.stack = n.stack := by
  rcases start_branches n with ⟨_, h2, _⟩ | ⟨_, uid2, h2⟩ | ⟨_, svcs, uid2, h2⟩ <;>
    rw [h2] <;> exact ⟨rfl, rfl⟩

/-- A fully successful `Start` ran every factory, published the service map
constructed from the registry with fresh identities, and installed the copied
configuration as the running server. -/
theorem start_success (n : NodeState) (h : (start n).1 = none) :
    n.running = none
    ∧ (∀ p ∈ n.stack, p.2.isMakes = true)
    ∧ (start n).2.1.services = some (mkServices n.nextUid n.stack)
    ∧ (start n).2.1.running = some n.config
    ∧ (∀ p ∈ n.stack, Event.factoryCall p.1 ∈ (start n).2.2) := by
  cases hr : n.running.isSome with
  | true => simp [start, hr] at h
  | false =>
    have hrn : n.running = none := by
      cases hv : n.running
      · rfl
      · rw [hv] at hr; simp at hr
    rcases heq : instantiate n.nextUid [] n.stack with ⟨res, uid2, evs⟩
    cases res with
    | error e => simp [start, hr, heq] at h
    | ok svcs =>
      have hall : ∀ p ∈ n.stack, p.2.isMakes = true :=
        instantiate_ok n.stack n.nextUid [] svcs (by rw [heq])
      have hchar := instantiate_all_makes n.stack n.nextUid [] hall
      rw [heq] at hchar
      have hsvcs : svcs = mkServices n.nextUid n.stack := by
        have := congrArg Prod.fst hchar
        simpa using this
      have hevs : evs = (ids n.stack).map Event.factoryCall := by
        have := congrArg (fun t => t.2.2) hchar
        simpa using this
      subst hsvcs
      subst hevs
      cases hse : n.config.startErr with
      | some e => simp [start, hr, heq, hse] at h
      | none =>
        rcases hsl : startLoop []
            ((ids n.stack).map Event.factoryCall ++ [Event.netStart])
            (mkServices n.nextUid n.stack) with ⟨oe, evs2⟩
        cases oe with
        | some e => simp [start, hr, heq, hse, hsl] at h
        | none =>
          refine ⟨hrn, hall, ?_, ?_, ?_⟩
          · simp [start, hr, heq, hse, hsl]
          · simp [start, hr, heq, hse, hsl]
          · intro p hp
            obtain ⟨tail, htail⟩ := startLoop_evs_prefix
              (mkServices n.nextUid n.stack) []
              ((ids n.stack).map Event.factoryCall ++ [Event.netStart])
            rw [hsl] at htail
            simp only at htail
            have hmem : Event.factoryCall p.1 ∈
                (ids n.stack).map Event.factoryCall :=
              List.mem_map_of_mem Event.factoryCall
                (List.mem_map_of_mem Prod.fst hp)
            have : Event.factoryCall p.1 ∈ evs2 := by
              rw [htail]; simp [hmem]
            simpa [start, hr, heq, hse, hsl] using this

theorem stop_stopped (n : NodeState) (h : n.running = none) :
    stop n = (some Err.nodeStopped, n, []) := by
  simp [stop, h]

/-- A `Stop` of a running node: every live service is stopped in order, then
the p2p server, the live state is cleared, and the aggregate of the per
service failures is returned exactly when it is non-empty. -/
theorem stop_run (n : NodeState) (r : P2PServer) (h : n.running = some r) :
    stop n =
      ((if ((n.services.getD []).filterMap
              (fun q => q.2.stopErr.map (fun e => (q.1, e)))).isEmpty
        then none
        else some (Err.stopError ((n.services.getD []).filterMap
              (fun q => q.2.stopErr.map (fun e => (q.1, e)))))),
       { n with services := none, running := none },
       (ids (n.services.getD [])).map Event.svcStop ++ [Event.netStop]) := by
  simp only [stop, h, stopLoop_spec]
  simp only [List.nil_append, ids]
  split <;> simp [*]

theorem register_frame (n : NodeState) (id : String) (c : Factory) :
    (register n id c).2.running = n.running
    ∧ (register n id c).2.services = n.services
    ∧ (register n id c).2.config = n.config := by
  cases hr : n.running.isSome <;> cases hs : stackHas n.stack id <;>
    simp [register, hr, hs]

theorem unregister_frame (n : NodeState) (id : String) :
    (unregister n id).2.running = n.running
    ∧ (unregister n id).2.services = n.services
    ∧ (unregister n id).2.config = n.config := by
  cases hr : n.running.isSome <;> cases hs : stackHas n.stack id <;>
    simp [unregister, hr, hs]

/-! ### The live-state consistency invariant -/

/-- The invariant of section 3 of the spec: the live p2p server handle and
the live service map are both absent or both present. -/
def liveConsistent (n : NodeState) : Prop :=
  n.running.isSome ↔ n.services.isSome

theorem liveConsistent_register (n : NodeState) (id : String) (c : Factory)
    (h : liveConsistent n) : liveConsistent (register n id c).2 := by
  obtain ⟨h1, h2, _⟩ := register_frame n id c
  unfold liveConsistent at *
  rw [h1, h2]; exact h

theorem liveConsistent_unregister (n : NodeState) (id : String)
    (h : liveConsistent n) : liveConsistent (unregister n id).2 := by
  obtain ⟨h1, h2, _⟩ := unregister_frame n id
  unfold liveConsistent at *
  rw [h1, h2]; exact h

theorem liveConsistent_start (n : NodeState) (h : liveConsistent n) :
    liveConsistent (start n).2.1 := by
  rcases start_branches n with ⟨_, h2, _⟩ | ⟨_, uid2, h2⟩ | ⟨_, svcs, uid2, h2⟩ <;>
    rw [h2]
  · exact h
  · exact h
  · simp [liveConsistent]

theorem liveConsistent_stop (n : NodeState) (h : liveConsistent n) :
    liveConsistent (stop n).2.1 := by
  cases hr : n.running with
  | none => rw [stop_stopped n hr]; exact h
  | some r => rw [stop_run n r hr]; simp [liveConsistent]

theorem restart_state (n : NodeState) :
    (restart n).2.1 = (stop n).2.1
    ∨ (restart n).2.1 = (start (stop n).2.1).2.1 := by
  rcases hst : stop n with ⟨oe, n2, evs⟩
  cases oe with
  | some e => exact Or.inl (by simp [restart, hst])
  | none =>
    rcases hs2 : start n2 with ⟨oe2, n3, evs2⟩
    exact Or.inr (by simp [restart, hst, hs2])

theorem liveConsistent_restart (n : NodeState) (h : liveConsistent n) :
    liveConsistent (restart n).2.1 := by
  rcases restart_state n with h2 | h2 <;> rw [h2]
  · exact liveConsistent_stop n h
  · exact liveConsistent_start _ (liveConsistent_stop n h)

/-! ### Concrete nodes used as witnesses and counterexamples -/

/-- A p2p configuration whose transport starts and stops cleanly. -/
def cfgOK : P2PServer :=
  { privateKey := 1, name := "node", startErr := none, stopErr := none }

/-- A factory whose service starts and stops cleanly. -/
def facOK : Factory := Factory.makes none none

/-- A stopped node with three well-behaved registered services. -/
def exStopped : NodeState :=
  { config := cfgOK, stack := [("a", facOK), ("b", facOK), ("c", facOK)],
    running := none, services := none, nextUid := 0 }

/-- A running node whose single live service fails to stop. -/
def exRunning : NodeState :=
  { config := cfgOK, stack := [("a", facOK)], running := some cfgOK,
    services := some
      [("a", { uid := 0, startErr := none, stopErr := some (Err.external 5) })],
    nextUid := 1 }

/-- A running node with three live services of which the second fails to stop
(the scenario of the spec's `Stop` example). -/
def exRunning3 : NodeState :=
  { config := cfgOK,
    stack := [("a", facOK), ("b", Factory.makes none (some (Err.external 9))),
              ("c", facOK)],
    running := some cfgOK,
    services := some
      [("a", { uid := 0, startErr := none, stopErr := none }),
       ("b", { uid := 1, startErr := none, stopErr := some (Err.external 9) }),
       ("c", { uid := 2, startErr := none, stopErr := none })],
    nextUid := 3 }

/-! ### Claim theorems -/

/-- Claim C5: while Running, `Register`, `Unregister` and `Start` each fail
with the already-running error (`ErrNodeRunning`) and leave the node
untouched; while Stopped, `Stop` fails with the not-running error
(`ErrNodeStopped`) and leaves the node untouched. -/
theorem C5_state_guards (n m : NodeState) (r : P2PServer) (id id2 : String)
    (c : Factory) (hn : n.running = some r) (hm : m.running = none) :
    register n id c = (some Err.nodeRunning, n)
    ∧ unregister n id2 = (some Err.nodeRunning, n)
    ∧ start n = (some Err.nodeRunning, n, [])
    ∧ stop m = (some Err.nodeStopped, m, []) := by
  have hs : n.running.isSome = true := by rw [hn]; rfl
  exact ⟨by simp [register, hs], by simp [unregister, hs],
    by simp [start, hs], stop_stopped m hm⟩

theorem C5_state_guards_witness :
    register exRunning "x" facOK = (some Err.nodeRunning, exRunning)
    ∧ unregister exRunning "a" = (some Err.nodeRunning, exRunning)
    ∧ start exRunning = (some Err.nodeRunning, exRunning, [])
    ∧ stop exStopped = (some Err.nodeStopped, exStopped, []) :=
  C5_state_guards exRunning exStopped cfgOK "x" "a" facOK rfl rfl

/-- Claim C4: after each public operation (`Register`, `Unregister`, `Start`,
`Stop`, `Restart`) the live p2p handle and the live service map are both
absent or both present — no operation creates a state where only one of them
is set. -/
theorem C4_live_handles_consistent (n : NodeState) (id id2 : String)
    (c : Factory) (h : liveConsistent n) :
    liveConsistent (register n id c).2
    ∧ liveConsistent (unregister n id2).2
    ∧ liveConsistent (start n).2.1
    ∧ liveConsistent (stop n).2.1
    ∧ liveConsistent (restart n).2.1 :=
  ⟨liveConsistent_register n id c h, liveConsistent_unregister n id2 h,
   liveConsistent_start n h, liveConsistent_stop n h,
   liveConsistent_restart n h⟩

theorem C4_live_handles_consistent_witness :
    liveConsistent (register exStopped "d" facOK).2
    ∧ liveConsistent (unregister exStopped "a").2
    ∧ liveConsistent (start exStopped).2.1
    ∧ liveConsistent (stop exStopped).2.1
    ∧ liveConsistent (restart exStopped).2.1 :=
  C4_live_handles_consistent exStopped "d" "a" facOK Iff.rfl

/-- Claim C2: `Stop` on a Running node stops every live service (no
short-circuiting; the trace shows one `Stop` call per live service even when
some fail), then unconditionally stops the p2p server, then clears the live
maps; the aggregate maps exactly the IDs whose stop failed to their errors,
and an error is returned precisely when that aggregate is non-empty; the node
ends Stopped regardless. -/
theorem C2_stop_semantics (n : NodeState) (r : P2PServer)
    (h : n.running = some r) :
    (stop n).2.2 = (ids (n.services.getD [])).map Event.svcStop
        ++ [Event.netStop]
    ∧ (stop n).2.1 = { n with running := none, services := none }
    ∧ (stop n).1 = (if ((n.services.getD []).filterMap
          (fun q => q.2.stopErr.map (fun e => (q.1, e)))).isEmpty
        then none
        else some (Err.stopError ((n.services.getD []).filterMap
          (fun q => q.2.stopErr.map (fun e => (q.1, e))))))
    ∧ (∀ id e, (id, e) ∈ (n.services.getD []).filterMap
          (fun q => q.2.stopErr.map (fun e2 => (q.1, e2)))
        ↔ ∃ s : Service, (id, s) ∈ n.services.getD []
            ∧ s.stopErr = some e) := by
  have hr := stop_run n r h
  refine ⟨by rw [hr], by rw [hr], by rw [hr], ?_⟩
  intro id e
  simp only [List.mem_filterMap, Option.map_eq_some']
  constructor
  · rintro ⟨⟨id2, s⟩, hq, e2, hse, hpair⟩
    obtain ⟨h1, h2⟩ := Prod.mk.injEq id2 e2 id e ▸ hpair
    subst h1; subst h2
    exact ⟨s, hq, hse⟩
  · rintro ⟨s, hq, hse⟩
    exact ⟨(id, s), hq, e, hse, rfl⟩

theorem C2_stop_semantics_witness :
    (stop exRunning3).2.2 = (ids (exRunning3.services.getD [])).map
        Event.svcStop ++ [Event.netStop]
    ∧ (stop exRunning3).2.1 =
        { exRunning3 with running := none, services := none }
    ∧ (stop exRunning3).1 = (if ((exRunning3.services.getD []).filterMap
          (fun q => q.2.stopErr.map (fun e => (q.1, e)))).isEmpty
        then none
        else some (Err.stopError ((exRunning3.services.getD []).filterMap
          (fun q => q.2.stopErr.map (fun e => (q.1, e))))))
    ∧ (∀ id e, (id, e) ∈ (exRunning3.services.getD []).filterMap
          (fun q => q.2.stopErr.map (fun e2 => (q.1, e2)))
        ↔ ∃ s : Service, (id, s) ∈ exRunning3.services.getD []
            ∧ s.stopErr = some e) :=
  C2_stop_semantics exRunning3 cfgOK rfl

/-- Claim C10: a non-nil error from `Stop` of a Running node is always the
aggregate `StopError` with a non-empty per-service map whose entries all come
from failing service stops; the p2p server's own stop never contributes to
the result — its outcome is discarded, so `Stop` behaves identically
whatever the server's stop behaviour is. -/
theorem C10_stop_error_aggregate (n : NodeState) (r : P2PServer) (err : Err)
    (h : n.running = some r) (he : (stop n).1 = some err) :
    (∃ l, err = Err.stopError l ∧ l ≠ []
      ∧ ∀ p ∈ l, ∃ s : Service, (p.1, s) ∈ n.services.getD []
          ∧ s.stopErr = some p.2)
    ∧ (∀ r2 : P2PServer, stop { n with running := some r2 } = stop n) := by
  have hr := stop_run n r h
  constructor
  · rw [hr] at he
    simp only at he
    rcases hempty : ((n.services.getD []).filterMap
        (fun q => q.2.stopErr.map (fun e => (q.1, e)))).isEmpty with _ | _
    · rw [if_neg (by rw [hempty]; exact Bool.false_ne_true)] at he
      refine ⟨_, (Option.some.injEq _ _ ▸ he).symm, ?_, ?_⟩
      · intro hnil
        rw [hnil] at hempty
        simp at hempty
      · intro p hp
        rcases List.mem_filterMap.mp hp with ⟨⟨id2, s⟩, hq, hf⟩
        rcases Option.map_eq_some'.mp hf with ⟨e2, hse, hpair⟩
        obtain ⟨h1, h2⟩ := Prod.mk.injEq id2 e2 p.1 p.2 ▸ hpair
        subst h1
        exact ⟨s, hq, by rw [hse, h2]⟩
    · rw [if_pos hempty] at he
      exact absurd he (by simp)
  · intro r2
    rw [stop_run { n with running := some r2 } r2 rfl, hr]

theorem C10_stop_error_aggregate_witness :
    (∃ l, Err.stopError [("a", Err.external 5)] = Err.stopError l ∧ l ≠ []
      ∧ ∀ p ∈ l, ∃ s : Service, (p.1, s) ∈ exRunning.services.getD []
          ∧ s.stopErr = some p.2)
    ∧ (∀ r2 : P2PServer, stop { exRunning with running := some r2 }
        = stop exRunning) :=
  C10_stop_error_aggregate exRunning cfgOK
    (Err.stopError [("a", Err.external 5)]) rfl rfl

/-- Claim C3: if a registered factory fails during `Start` (all factories
before it succeeding), `Start` immediately returns that error; no service is
started, the p2p server is not started, the registry is untouched and the
node stays Stopped. -/
theorem C3_factory_failure_aborts (n : NodeState)
    (pre rest : List (String × Factory)) (idF : String) (e : Err)
    (hrun : n.running = none)
    (hstack : n.stack = pre ++ (idF, Factory.fails e) :: rest)
    (hpre : ∀ p ∈ pre, p.2.isMakes = true) :
    (start n).1 = some e
    ∧ (start n).2.1.stack = n.stack
    ∧ (start n).2.1.running = none
    ∧ (start n).2.1.services = n.services
    ∧ (start n).2.1.config = n.config
    ∧ (start n).2.2 = (ids pre).map Event.factoryCall
        ++ [Event.factoryCall idF]
    ∧ Event.netStart ∉ (start n).2.2
    ∧ (∀ id, Event.svcStart id ∉ (start n).2.2) := by
  have hr : n.running.isSome = false := by rw [hrun]; rfl
  have hi := instantiate_first_fails pre n.nextUid [] idF e rest hpre
  have hstart : start n =
      (some e, { n with nextUid := n.nextUid + pre.length },
       (ids pre).map Event.factoryCall ++ [Event.factoryCall idF]) := by
    rw [start.eq_def]
    simp [hr, hstack, hi]
  refine ⟨by rw [hstart], by rw [hstart], by rw [hstart, hrun],
    by rw [hstart], by rw [hstart], by rw [hstart], ?_, ?_⟩
  · rw [hstart]
    simp [ids]
  · intro id
    rw [hstart]
    simp [ids]

/-- A stopped node whose second factory fails. -/
def exFactoryFail2 : NodeState :=
  { config := cfgOK,
    stack := [("a", facOK), ("bad", Factory.fails (Err.external 3))],
    running := none, services := none, nextUid := 0 }

theorem C3_factory_failure_aborts_witness :
    (start exFactoryFail2).1 = some (Err.external 3)
    ∧ (start exFactoryFail2).2.1.stack = exFactoryFail2.stack
    ∧ (start exFactoryFail2).2.1.running = none
    ∧ (start exFactoryFail2).2.1.services = exFactoryFail2.services
    ∧ (start exFactoryFail2).2.1.config = exFactoryFail2.config
    ∧ (start exFactoryFail2).2.2 = (ids [("a", facOK)]).map Event.factoryCall
        ++ [Event.factoryCall "bad"]
    ∧ Event.netStart ∉ (start exFactoryFail2).2.2
    ∧ (∀ id, Event.svcStart id ∉ (start exFactoryFail2).2.2) :=
  C3_factory_failure_aborts exFactoryFail2 [("a", facOK)] [] "bad"
    (Err.external 3) rfl rfl (by decide)

/-! ### Registration sequences (claim C6) -/

/-- One registry operation issued by a caller. -/
inductive RegOp : Type where
  | reg (id : String) (c : Factory) : RegOp
  | unreg (id : String) : RegOp

/-- Run a sequence of `Register`/`Unregister` calls against a node,
discarding the per-call results (failed calls leave the node unchanged by
construction). -/
def applyOps (n : NodeState) : List RegOp → NodeState
  | [] => n
  | RegOp.reg id c :: rest => applyOps (register n id c).2 rest
  | RegOp.unreg id :: rest => applyOps (unregister n id).2 rest

/-- Modelled from the spec: the net set of IDs registered and not
unregistered by a sequence of operations, starting from an initial ID set —
a `Register` inserts the ID if absent, an `Unregister` removes it. -/
def netIds (s : List String) : List RegOp → List String
  | [] => s
  | RegOp.reg id _ :: rest => netIds (if id ∈ s then s else s ++ [id]) rest
  | RegOp.unreg id :: rest => netIds (s.erase id) rest

theorem stackHas_iff (s : List (String × Factory)) (id : String) :
    stackHas s id = true ↔ id ∈ ids s := by
  simp [stackHas, List.any_eq_true, ids, List.mem_map, beq_iff_eq]

theorem ids_eraseP (l : List (String × Factory)) (id : String) :
    ids (l.eraseP (fun p => p.1 == id)) = (ids l).erase id := by
  induction l with
  | nil => simp [ids]
  | cons p l ih =>
    by_cases hp : p.1 = id
    · simp [ids, List.eraseP_cons, List.erase_cons, hp]
    · have hb : (p.1 == id) = false := by simpa using hp
      have ih2 : List.map Prod.fst (List.eraseP (fun p => p.1 == id) l)
          = (List.map Prod.fst l).erase id := by simpa [ids] using ih
      simp [ids, List.eraseP_cons, List.erase_cons, hb, ih2]

theorem register_ids (n : NodeState) (id : String) (c : Factory)
    (h : n.running = none) :
    ids (register n id c).2.stack =
      (if id ∈ ids n.stack then ids n.stack else ids n.stack ++ [id]) := by
  have hr : n.running.isSome = false := by rw [h]; rfl
  by_cases hs : id ∈ ids n.stack
  · rw [if_pos hs]
    have : stackHas n.stack id = true := (stackHas_iff n.stack id).mpr hs
    simp [register, hr, this]
  · rw [if_neg hs]
    have : stackHas n.stack id = false := by
      cases hv : stackHas n.stack id
      · rfl
      · exact absurd ((stackHas_iff n.stack id).mp hv) hs
    simp [register, hr, this, ids]

theorem unregister_ids (n : NodeState) (id : String) (h : n.running = none) :
    ids (unregister n id).2.stack = (ids n.stack).erase id := by
  have hr : n.running.isSome = false := by rw [h]; rfl
  cases hv : stackHas n.stack id
  · have habs : id ∉ ids n.stack := by
      intro hmem
      rw [(stackHas_iff n.stack id).mpr hmem] at hv
      exact Bool.noConfusion hv
    rw [List.erase_of_not_mem habs]
    simp [unregister, hr, hv]
  · simp only [unregister, hr, Bool.false_eq_true, if_false, hv, if_true]
    exact ids_eraseP n.stack id

theorem applyOps_running (ops : List RegOp) :
    ∀ n : NodeState, (applyOps n ops).running = n.running := by
  induction ops with
  | nil => intro n; rfl
  | cons op ops ih =>
    intro n
    cases op with
    | reg id c => rw [applyOps, ih, (register_frame n id c).1]
    | unreg id => rw [applyOps, ih, (unregister_frame n id).1]

theorem applyOps_ids (ops : List RegOp) :
    ∀ n : NodeState, n.running = none →
    ids (applyOps n ops).stack = netIds (ids n.stack) ops := by
  induction ops with
  | nil => intro n _; rfl
  | cons op ops ih =>
    intro n h
    cases op with
    | reg id c =>
      have h2 : (register n id c).2.running = none := by
        rw [(register_frame n id c).1, h]
      rw [applyOps, netIds, ih _ h2, register_ids n id c h]
    | unreg id =>
      have h2 : (unregister n id).2.running = none := by
        rw [(unregister_frame n id).1, h]
      rw [applyOps, netIds, ih _ h2, unregister_ids n id h]

/-- Claim C6: a sequence of `Register`/`Unregister` calls on a Stopped node
leaves the registry holding exactly the net set of IDs registered and not
unregistered; a duplicate `Register` fails with the duplicate-ID error
(`ErrServiceRegistered`) leaving the registry unchanged, and an `Unregister`
of an absent ID fails with the unknown-ID error (`ErrServiceUnknown`)
leaving the registry unchanged. -/
theorem C6_registry_net_set (n : NodeState) (ops : List RegOp)
    (id x : String) (c : Factory) (hrun : n.running = none) :
    ids (applyOps n ops).stack = netIds (ids n.stack) ops
    ∧ (x ∈ ids (applyOps n ops).stack ↔ x ∈ netIds (ids n.stack) ops)
    ∧ (id ∈ ids n.stack → register n id c = (some Err.serviceRegistered, n))
    ∧ (id ∉ ids n.stack →
        unregister n id = (some Err.serviceUnknown, n)) := by
  have hmain := applyOps_ids ops n hrun
  have hr : n.running.isSome = false := by rw [hrun]; rfl
  refine ⟨hmain, by rw [hmain], ?_, ?_⟩
  · intro hdup
    have : stackHas n.stack id = true := (stackHas_iff n.stack id).mpr hdup
    simp [register, hr, this]
  · intro habs
    have : stackHas n.stack id = false := by
      cases hv : stackHas n.stack id
      · rfl
      · exact absurd ((stackHas_iff n.stack id).mp hv) habs
    simp [unregister, hr, this]

theorem C6_registry_net_set_witness :
    ids (applyOps exStopped
        [RegOp.reg "d" facOK, RegOp.unreg "a", RegOp.reg "b" facOK,
         RegOp.unreg "zz"]).stack =
      netIds (ids exStopped.stack)
        [RegOp.reg "d" facOK, RegOp.unreg "a", RegOp.reg "b" facOK,
         RegOp.unreg "zz"]
    ∧ ("d" ∈ ids (applyOps exStopped
        [RegOp.reg "d" facOK, RegOp.unreg "a", RegOp.reg "b" facOK,
         RegOp.unreg "zz"]).stack ↔
       "d" ∈ netIds (ids exStopped.stack)
        [RegOp.reg "d" facOK, RegOp.unreg "a", RegOp.reg "b" facOK,
         RegOp.unreg "zz"])
    ∧ ("a" ∈ ids exStopped.stack →
        register exStopped "a" facOK = (some Err.serviceRegistered, exStopped))
    ∧ ("a" ∉ ids exStopped.stack →
        unregister exStopped "a" = (some Err.serviceUnknown, exStopped)) :=
  C6_registry_net_set exStopped
    [RegOp.reg "d" facOK, RegOp.unreg "a", RegOp.reg "b" facOK,
     RegOp.unreg "zz"] "a" "d" facOK rfl

theorem stop_config_stack (n : NodeState) :
    (stop n).2.1.config = n.config ∧ (stop n).2.1.stack = n.stack
    ∧ (stop n).2.1.nextUid = n.nextUid := by
  cases hr : n.running with
  | none => rw [stop_stopped n hr]; exact ⟨rfl, rfl, rfl⟩
  | some r => rw [stop_run n r hr]; exact ⟨rfl, rfl, rfl⟩

/-- Claim C8: neither `Start` nor `Stop` mutates the configuration template
or the registry; `Start` copies the configuration by value (on success the
running server is exactly the template's value, the template untouched), and
after a successful `Start` followed by `Stop` the registry holds exactly the
IDs it held before. -/
theorem C8_frame_effects (n : NodeState) :
    (start n).2.1.config = n.config
    ∧ (start n).2.1.stack = n.stack
    ∧ (stop n).2.1.config = n.config
    ∧ (stop n).2.1.stack = n.stack
    ∧ ((start n).1 = none → (start n).2.1.running = some n.config)
    ∧ ((start n).1 = none → (stop (start n).2.1).2.1.stack = n.stack) := by
  obtain ⟨h1, h2⟩ := start_config_stack n
  obtain ⟨h3, h4, _⟩ := stop_config_stack n
  refine ⟨h1, h2, h3, h4, ?_, ?_⟩
  · intro hok
    exact (start_success n hok).2.2.2.1
  · intro hok
    rw [(stop_config_stack (start n).2.1).2.1, h2]

theorem C8_frame_effects_witness :
    (start exStopped).2.1.config = exStopped.config
    ∧ (start exStopped).2.1.stack = exStopped.stack
    ∧ (stop exStopped).2.1.config = exStopped.config
    ∧ (stop exStopped).2.1.stack = exStopped.stack
    ∧ ((start exStopped).1 = none →
        (start exStopped).2.1.running = some exStopped.config)
    ∧ ((start exStopped).1 = none →
        (stop (start exStopped).2.1).2.1.stack = exStopped.stack) :=
  C8_frame_effects exStopped

/-- Claim C7: `Restart` is the sequential composition of `Stop` then
`Start` — a failing `Stop` is returned as-is without attempting `Start`,
otherwise `Restart`'s outcome is exactly `Start`'s on the stopped state; on
full success the node is Running again with live service instances freshly
constructed by re-invoking every registered factory, none of them reused
from before the restart. -/
theorem C7_restart_composition (n : NodeState)
    (hold : ∀ q ∈ n.services.getD [], q.2.uid < n.nextUid) :
    (∀ e, (stop n).1 = some e →
        restart n = (some e, (stop n).2.1, (stop n).2.2))
    ∧ ((stop n).1 = none →
        restart n = ((start (stop n).2.1).1, (start (stop n).2.1).2.1,
          (stop n).2.2 ++ (start (stop n).2.1).2.2))
    ∧ ((restart n).1 = none →
        (restart n).2.1.running.isSome = true
        ∧ (restart n).2.1.services.isSome = true
        ∧ (∀ p ∈ n.stack, Event.factoryCall p.1 ∈ (restart n).2.2)
        ∧ (∀ q ∈ (restart n).2.1.services.getD [],
            ∀ p ∈ n.services.getD [], q.2 ≠ p.2)) := by
  rcases hst : stop n with ⟨oe, n2, evs⟩
  refine ⟨?_, ?_, ?_⟩
  · intro e he
    simp only at he
    rw [he] at hst
    simp [restart, hst]
  · intro he
    simp only at he
    rw [he] at hst
    rcases hs2 : start n2 with ⟨oe2, n3, evs2⟩
    simp [restart, hst, hs2]
  · intro hok
    cases oe with
    | some e =>
      rw [show (restart n).1 = some e from by simp [restart, hst]] at hok
      exact absurd hok (by simp)
    | none =>
      rcases hs2 : start n2 with ⟨oe2, n3, evs2⟩
      have hres : restart n = (oe2, n3, evs ++ evs2) := by
        simp [restart, hst, hs2]
      rw [hres] at hok
      simp only at hok
      subst hok
      have hok2 : (start n2).1 = none := by rw [hs2]
      obtain ⟨hn2run, _, hsvcs, hrun2, hfc⟩ := start_success n2 hok2
      -- stop succeeded, so the node was running and its fields survive
      have hnr : ∃ r, n.running = some r := by
        cases hv : n.running with
        | none =>
          rw [stop_stopped n hv] at hst
          exact absurd (congrArg (fun t => t.1) hst) (by simp)
        | some r => exact ⟨r, rfl⟩
      obtain ⟨r, hr⟩ := hnr
      have hn2 : n2 = { n with services := none, running := none } := by
        have := stop_run n r hr
        rw [hst] at this
        exact congrArg (fun t => t.2.1) this
      rw [hs2] at hsvcs hrun2
      simp only at hsvcs hrun2
      refine ⟨?_, ?_, ?_, ?_⟩
      · rw [hres]
        simp only
        rw [hrun2]
        rfl
      · rw [hres]
        simp only
        rw [hsvcs]
        rfl
      · intro p hp
        have hp2 : p ∈ n2.stack := by rw [hn2]; exact hp
        have hmem := hfc p hp2
        rw [hs2] at hmem
        simp only at hmem
        rw [hres]
        simp only
        simp [hmem]
      · intro q hq p hp
        rw [hres] at hq
        simp only at hq
        rw [show n3.services.getD [] = mkServices n2.nextUid n2.stack from
          by rw [hsvcs]; rfl] at hq
        have hge : n2.nextUid ≤ q.2.uid :=
          mkServices_uid_ge n2.stack n2.nextUid q hq
        have hlt : p.2.uid < n.nextUid := hold p hp
        have hsame : n2.nextUid = n.nextUid := by rw [hn2]
        intro heq
        have : q.2.uid = p.2.uid := congrArg Service.uid heq
        omega

/-- A healthy running node whose live service was built with uid 0. -/
def exRunningOK : NodeState :=
  { config := cfgOK, stack := [("a", facOK)], running := some cfgOK,
    services := some [("a", { uid := 0, startErr := none, stopErr := none })],
    nextUid := 1 }

theorem C7_restart_composition_witness :
    (∀ e, (stop exRunningOK).1 = some e →
        restart exRunningOK = (some e, (stop exRunningOK).2.1,
          (stop exRunningOK).2.2))
    ∧ ((stop exRunningOK).1 = none →
        restart exRunningOK = ((start (stop exRunningOK).2.1).1,
          (start (stop exRunningOK).2.1).2.1,
          (stop exRunningOK).2.2 ++ (start (stop exRunningOK).2.1).2.2))
    ∧ ((restart exRunningOK).1 = none →
        (restart exRunningOK).2.1.running.isSome = true
        ∧ (restart exRunningOK).2.1.services.isSome = true
        ∧ (∀ p ∈ exRunningOK.stack,
            Event.factoryCall p.1 ∈ (restart exRunningOK).2.2)
        ∧ (∀ q ∈ (restart exRunningOK).2.1.services.getD [],
            ∀ p ∈ exRunningOK.services.getD [], q.2 ≠ p.2)) :=
  C7_restart_composition exRunningOK (by decide)

/-! ### Rollback on a failing service start (claim C1) -/

theorem Factory.startsOK_isMakes (c : Factory) (h : c.startsOK = true) :
    c.isMakes = true := by
  cases c with
  | fails e => simp [Factory.startsOK] at h
  | makes se te => rfl

/-- A stopped node with two healthy services and a third whose `Start`
fails. -/
def exRollback : NodeState :=
  { config := cfgOK,
    stack := [("a", facOK), ("b", facOK),
              ("c", Factory.makes (some (Err.external 7)) none)],
    running := none, services := none, nextUid := 0 }

/-- Claim C1 (counterexample): on this run, services `a` and `b` started
before `c` failed; the rollback emits the stop calls in start order —
`Stop a` then `Stop b`, not the reverse — and never stops the p2p server, so
the trace the claim mandates (reverse-order stops followed by a network
stop) is not the trace the code produces. -/
theorem C1_counterexample :
    (start exRollback).1 = some (Err.external 7)
    ∧ (start exRollback).2.2 =
        [Event.factoryCall "a", Event.factoryCall "b", Event.factoryCall "c",
         Event.netStart, Event.svcStart "a", Event.svcStart "b",
         Event.svcStart "c", Event.svcStop "a", Event.svcStop "b"]
    ∧ Event.netStop ∉ (start exRollback).2.2
    ∧ (start exRollback).2.2 ≠
        [Event.factoryCall "a", Event.factoryCall "b", Event.factoryCall "c",
         Event.netStart, Event.svcStart "a", Event.svcStart "b",
         Event.svcStart "c", Event.svcStop "b", Event.svcStop "a",
         Event.netStop] := by
  refine ⟨rfl, rfl, by decide, by decide⟩

/-- Claim C1 (amended): when the first `N-1` services start and service `N`
fails to start, the container stops exactly the services started so far in
this `Start` call, in start order (the same order they were started, not in
reverse), each exactly once, swallowing rollback failures; it does not stop
the p2p server (which is left started); it returns the original
service-start error; and the node's fields are left in the pre-call Stopped
state. -/
theorem C1_rollback_forward (n : NodeState)
    (pre rest : List (String × Factory)) (idN : String) (e : Err)
    (te : Option Err)
    (hrun : n.running = none)
    (hnet : n.config.startErr = none)
    (hstack : n.stack = pre ++ (idN, Factory.makes (some e) te) :: rest)
    (hpre : ∀ p ∈ pre, p.2.startsOK = true)
    (hrest : ∀ p ∈ rest, p.2.isMakes = true) :
    (start n).1 = some e
    ∧ (start n).2.1.running = none
    ∧ (start n).2.1.services = n.services
    ∧ (start n).2.1.stack = n.stack
    ∧ (start n).2.1.config = n.config
    ∧ (start n).2.2 =
        (ids n.stack).map Event.factoryCall ++ [Event.netStart]
        ++ (ids pre).map Event.svcStart ++ [Event.svcStart idN]
        ++ (ids pre).map Event.svcStop
    ∧ Event.netStop ∉ (start n).2.2 := by
  have hr : n.running.isSome = false := by rw [hrun]; rfl
  have hpreM : ∀ p ∈ pre, p.2.isMakes = true :=
    fun p hp => Factory.startsOK_isMakes p.2 (hpre p hp)
  have hall : ∀ p ∈ n.stack, p.2.isMakes = true := by
    rw [hstack]
    intro p hp
    rcases List.mem_append.mp hp with hp | hp
    · exact hpreM p hp
    · rcases List.mem_cons.mp hp with hp | hp
      · rw [hp]; rfl
      · exact hrest p hp
  have hinst := instantiate_all_makes n.stack n.nextUid [] hall
  have hmk : mkServices n.nextUid n.stack =
      mkServices n.nextUid pre
      ++ (idN, { uid := n.nextUid + pre.length, startErr := some e,
                 stopErr := te })
        :: mkServices (n.nextUid + pre.length + 1) rest := by
    rw [hstack, mkServices_append]
    rfl
  have hpre2 : ∀ q ∈ mkServices n.nextUid pre, q.2.startErr = none :=
    mkServices_startErr_none pre n.nextUid hpre
  have hids : ids (mkServices n.nextUid pre) = ids pre :=
    mkServices_ids pre n.nextUid hpreM
  have hsl := startLoop_first_fails (mkServices n.nextUid pre) []
      ([] ++ (ids n.stack).map Event.factoryCall ++ [Event.netStart]) idN
      { uid := n.nextUid + pre.length, startErr := some e, stopErr := te } e
      (mkServices (n.nextUid + pre.length + 1) rest) hpre2 rfl
  have hstart : start n =
      (some e, { n with nextUid := n.nextUid + n.stack.length },
       (ids n.stack).map Event.factoryCall ++ [Event.netStart]
       ++ (ids pre).map Event.svcStart ++ [Event.svcStart idN]
       ++ (ids pre).map Event.svcStop) := by
    rw [start.eq_def]
    simp only [hr, Bool.false_eq_true, if_false, hinst, hnet, hmk, hsl]
    simp [hids]
  refine ⟨?_, ?_, ?_, ?_, ?_, ?_, ?_⟩
  · rw [hstart]
  · rw [hstart, hrun]
  · rw [hstart]
  · rw [hstart]
  · rw [hstart]
  · rw [hstart]
  · rw [hstart]
    simp [ids]

theorem C1_rollback_forward_witness :
    (start exRollback).1 = some (Err.external 7)
    ∧ (start exRollback).2.1.running = none
    ∧ (start exRollback).2.1.services = exRollback.services
    ∧ (start exRollback).2.1.stack = exRollback.stack
    ∧ (start exRollback).2.1.config = exRollback.config
    ∧ (start exRollback).2.2 =
        (ids exRollback.stack).map Event.factoryCall ++ [Event.netStart]
        ++ (ids [("a", facOK), ("b", facOK)]).map Event.svcStart
        ++ [Event.svcStart "c"]
        ++ (ids [("a", facOK), ("b", facOK)]).map Event.svcStop
    ∧ Event.netStop ∉ (start exRollback).2.2 :=
  C1_rollback_forward exRollback [("a", facOK), ("b", facOK)] [] "c"
    (Err.external 7) none rfl rfl rfl (by decide) (by decide)

/-! ### Errors are returned unwrapped (claim C9) -/

/-- A stopped node whose only factory fails. -/
def exFactoryFail : NodeState :=
  { config := cfgOK, stack := [("a", Factory.fails (Err.external 3))],
    running := none, services := none, nextUid := 0 }

/-- A stopped node whose only service fails to start. -/
def exServiceFail : NodeState :=
  { config := cfgOK,
    stack := [("b", Factory.makes (some (Err.external 4)) none)],
    running := none, services := none, nextUid := 0 }

/-- Claim C9 (counterexample): a failing factory's error is handed back by
`Start` verbatim, not as a `FactoryFailed` wrapper carrying the ID — and a
failing service start's error is handed back verbatim, not as a
`ServiceStartFailed` wrapper carrying the ID.  No wrapping error kind exists
anywhere in the code. -/
theorem C9_counterexample :
    (start exFactoryFail).1 = some (Err.external 3)
    ∧ (start exFactoryFail).1 ≠ some (Err.factoryFailed "a" (Err.external 3))
    ∧ (start exServiceFail).1 = some (Err.external 4)
    ∧ (start exServiceFail).1 ≠
        some (Err.serviceStartFailed "b" (Err.external 4)) := by
  refine ⟨rfl, fun h => ?_, rfl, fun h => ?_⟩
  · have h2 : some (Err.external 3)
        = some (Err.factoryFailed "a" (Err.external 3)) := h
    injection h2 with h3
    exact Err.noConfusion h3
  · have h2 : some (Err.external 4)
        = some (Err.serviceStartFailed "b" (Err.external 4)) := h
    injection h2 with h3
    exact Err.noConfusion h3

/-- Claim C9 (amended): every error `Start` returns is one of the
collaborators' errors verbatim — the already-running sentinel, a factory's
own error, the p2p server's start error, or a service's own start error —
never a wrapper value carrying the offending ID. -/
theorem C9_raw_error (n : NodeState) (e : Err) (h : (start n).1 = some e) :
    e = Err.nodeRunning
    ∨ (∃ p ∈ n.stack, p.2 = Factory.fails e)
    ∨ n.config.startErr = some e
    ∨ (∃ p ∈ n.stack, ∃ te, p.2 = Factory.makes (some e) te) := by
  cases hr : n.running.isSome with
  | true =>
    left
    have h2 : (start n).1 = some Err.nodeRunning := by simp [start, hr]
    rw [h] at h2
    injection h2 with h3
  | false =>
    rcases heq : instantiate n.nextUid [] n.stack with ⟨res, uid2, evs⟩
    cases res with
    | error e2 =>
      have h2 : (start n).1 = some e2 := by simp [start, hr, heq]
      rw [h] at h2
      injection h2 with h3
      right; left
      rw [h3]
      exact instantiate_error n.stack n.nextUid [] e2 (by rw [heq])
    | ok svcs =>
      have hall : ∀ p ∈ n.stack, p.2.isMakes = true :=
        instantiate_ok n.stack n.nextUid [] svcs (by rw [heq])
      have hchar := instantiate_all_makes n.stack n.nextUid [] hall
      rw [heq] at hchar
      have hsvcs : svcs = mkServices n.nextUid n.stack := by
        have := congrArg Prod.fst hchar
        simpa using this
      cases hse : n.config.startErr with
      | some e2 =>
        have h2 : (start n).1 = some e2 := by simp [start, hr, heq, hse]
        rw [h] at h2
        injection h2 with h3
        right; right; left
        rw [h3]
      | none =>
        rcases hsl : startLoop [] (evs ++ [Event.netStart]) svcs with ⟨oe, evs2⟩
        cases oe with
        | none =>
          have h2 : (start n).1 = none := by simp [start, hr, heq, hse, hsl]
          rw [h] at h2
          exact absurd h2 (by simp)
        | some e2 =>
          have h2 : (start n).1 = some e2 := by simp [start, hr, heq, hse, hsl]
          rw [h] at h2
          injection h2 with h3
          subst h3
          obtain ⟨q, hq, hq2⟩ := startLoop_error svcs []
            (evs ++ [Event.netStart]) e (by rw [hsl])
          rw [hsvcs] at hq
          obtain ⟨p, hp, _, hp3⟩ :=
            mkServices_mem_factory n.stack n.nextUid q hq
          right; right; right
          exact ⟨p, hp, q.2.stopErr, by rw [hp3, hq2]⟩

theorem C9_raw_error_witness :
    Err.external 3 = Err.nodeRunning
    ∨ (∃ p ∈ exFactoryFail.stack, p.2 = Factory.fails (Err.external 3))
    ∨ exFactoryFail.config.startErr = some (Err.external 3)
    ∨ (∃ p ∈ exFactoryFail.stack, ∃ te,
        p.2 = Factory.makes (some (Err.external 3)) te) :=
  C9_raw_error exFactoryFail (Err.external 3) rfl

end GethNode
